import Mathlib

/-!
# Shallow embedding of `image_labeler.py` (ipy-image-labeler)

The Python module defines two input-cell factories
(`MultiClassInputCellFactory`, `DetectorValidationInputCellFactory`) and an
`ImageLabeler` that renders images either all at once ("multi" mode) or one
at a time with Previous/Next navigation ("single" mode), threading labels
through per-image callbacks.

The embedding models the mutable state (labels array, seen array, current
index, auto-advance checkbox) explicitly, and models UI rendering by
recording the list of indices passed to `render_img`, in call order.
-/

/-- Python values as they occur as labels/classes in this module.  Python
truthiness matters in `MultiClassInputCellFactory.__init__`
(`default if default else classes[0]`), so the embedding uses a concrete
value type with Python's truthiness. -/
inductive PyVal where
  | none
  | pybool (b : Bool)
  | pyint (n : Int)
  | pystr (s : String)
deriving DecidableEq, Repr

/-- Python truthiness of a `PyVal`: `None`, `False`, `0` and `""` are falsy. -/
def PyVal.truthy : PyVal → Bool
  | PyVal.none => false
  | PyVal.pybool b => b
  | PyVal.pyint n => n != 0
  | PyVal.pystr s => s != ""

/-- Model of the `ipywidgets.ToggleButtons` configuration produced by
`MultiClassInputCellFactory.new`: its options and currently selected value. -/
structure ToggleButtons where
  options : List PyVal
  value : PyVal
deriving DecidableEq, Repr

/-- A traitlets change event as delivered to an `observe` handler:
`change['old']` and `change['new']`. -/
structure ChangeEvent where
  old : PyVal
  new : PyVal
deriving DecidableEq, Repr

/-- `MultiClassInputCellFactory`: `self._classes` and `self._default_class`. -/
structure MultiClassInputCellFactory where
  classes : List PyVal
  defaultClass : PyVal
deriving DecidableEq, Repr

/-- `MultiClassInputCellFactory.__init__(classes, default=None)`:
`self._default_class = default if default else classes[0]`.  The conditional
expression uses Python truthiness of `default`; when `default` is falsy,
`classes[0]` raises `IndexError` on an empty list, modelled by `Option.none`. -/
def MultiClassInputCellFactory.init (classes : List PyVal) (default : PyVal) :
    Option MultiClassInputCellFactory :=
  match (if default.truthy then Option.some default else classes.head?) with
  | Option.some d => Option.some { classes := classes, defaultClass := d }
  | Option.none => Option.none

/-- The cell returned by `MultiClassInputCellFactory.new`: the toggle-buttons
widget together with the `result_callback` the `on_change` observer closes
over.  Callbacks are modelled as state transformers on an ambient state `σ`. -/
structure MultiClassCell (σ : Type) where
  widget : ToggleButtons
  callback : PyVal → σ → σ

/-- `MultiClassInputCellFactory.new(result_callback, value=None)`: if `value`
is `None` or not among the classes it is replaced by the default class; the
`ToggleButtons` widget is created with `options=self._classes` and that value,
and `on_change` (observed on `'value'`) is wired to `result_callback`. -/
def MultiClassInputCellFactory.new {σ : Type} (f : MultiClassInputCellFactory)
    (resultCallback : PyVal → σ → σ) (value : PyVal) : MultiClassCell σ :=
  let v := if value = PyVal.none ∨ value ∉ f.classes then f.defaultClass else value
  { widget := { options := f.classes, value := v }, callback := resultCallback }

/-- The `on_change(change)` observer registered by
`MultiClassInputCellFactory.new` for `'value'` changes:
`result_callback(change['new'])`. -/
def MultiClassCell.onChange {σ : Type} (c : MultiClassCell σ) (change : ChangeEvent)
    (s : σ) : σ :=
  c.callback change.new s

/-- `DetectorValidationInputCellFactory.ValResult` (`tp`, `fp`, `fn : int`). -/
structure ValResult where
  tp : Int
  fp : Int
  fn : Int
deriving DecidableEq, Repr

/-- Model of the external `ipywidgets.BoundedIntText` widget relied on by
`DetectorValidationInputCellFactory.new`: its `value` trait is validated
against the bounds, clamped as `min(max(value, self.min), self.max)`, both at
construction and on every later assignment. -/
structure BoundedIntText where
  lo : Int
  hi : Int
  value : Int
deriving DecidableEq, Repr

/-- The bound validation applied to the `value` trait of a bounded widget:
`min(max(value, lo), hi)`. -/
def clampTrait (lo hi v : Int) : Int := min (max v lo) hi

/-- Construct a `BoundedIntText` with `min=lo`, `max=hi` and requested initial
`value=v`; the stored value is the validated (clamped) one. -/
def BoundedIntText.make (lo hi v : Int) : BoundedIntText :=
  { lo := lo, hi := hi, value := clampTrait lo hi v }

/-- Assigning the `value` trait of a `BoundedIntText` (a user edit): the
stored value is clamped into the bounds. -/
def BoundedIntText.setValue (w : BoundedIntText) (v : Int) : BoundedIntText :=
  { w with value := clampTrait w.lo w.hi v }

/-- The cell returned by `DetectorValidationInputCellFactory.new`: the three
counter widgets (true positives, false positives, false negatives) and the
`result_callback` the `on_submit` handler closes over. -/
structure ValCell (σ : Type) where
  tpWidget : BoundedIntText
  fpWidget : BoundedIntText
  fnWidget : BoundedIntText
  callback : ValResult → σ → σ

/-- `DetectorValidationInputCellFactory.new(result_callback, value=None)`:
`tp, fp, fn` start at `0, 0, 0` when `value is None`, else at `value.tp,
value.fp, value.fn`; each counter is a `BoundedIntText` with `min=0, max=100`;
the Submit button's `on_submit` handler is wired to `result_callback`. -/
def DetectorValidationInputCellFactory.new {σ : Type}
    (resultCallback : ValResult → σ → σ) (value : Option ValResult) : ValCell σ :=
  match value with
  | Option.none =>
      { tpWidget := BoundedIntText.make 0 100 0
        fpWidget := BoundedIntText.make 0 100 0
        fnWidget := BoundedIntText.make 0 100 0
        callback := resultCallback }
  | Option.some v =>
      { tpWidget := BoundedIntText.make 0 100 v.tp
        fpWidget := BoundedIntText.make 0 100 v.fp
        fnWidget := BoundedIntText.make 0 100 v.fn
        callback := resultCallback }

/-- The `ValResult` that `on_submit` builds from the three counter widgets:
`ValResult(tp=tp_widget.value, fp=fp_widget.value, fn=fn_widget.value)`. -/
def ValCell.submitResult {σ : Type} (c : ValCell σ) : ValResult :=
  { tp := c.tpWidget.value, fp := c.fpWidget.value, fn := c.fnWidget.value }

/-- The `on_submit` click handler registered on the Submit button:
`result_callback(ValResult(...))` built from the current widget values. -/
def ValCell.onSubmit {σ : Type} (c : ValCell σ) (s : σ) : σ :=
  c.callback c.submitResult s

/-- A user edit of one of the three counter widgets before submitting. -/
inductive ValEdit where
  | setTp (v : Int)
  | setFp (v : Int)
  | setFn (v : Int)
deriving DecidableEq, Repr

/-- Apply a user edit to the corresponding counter widget of the cell. -/
def ValCell.applyEdit {σ : Type} (c : ValCell σ) : ValEdit → ValCell σ
  | ValEdit.setTp v => { c with tpWidget := c.tpWidget.setValue v }
  | ValEdit.setFp v => { c with fpWidget := c.fpWidget.setValue v }
  | ValEdit.setFn v => { c with fnWidget := c.fnWidget.setValue v }

/-- Apply a sequence of user edits to the cell, in order. -/
def ValCell.applyEdits {σ : Type} (c : ValCell σ) (es : List ValEdit) : ValCell σ :=
  es.foldl ValCell.applyEdit c

/-- The `self._labels` / `self._seen` state set up by `ImageLabeler.__init__`
before any rendering happens (lines `self._labels = default_labels`,
`self._seen = [False] * len(images)`).  Labels are `Option α`: `Option.none`
is Python `None`. -/
structure InitData (α : Type) where
  labels : List (Option α)
  seen : List Bool
deriving DecidableEq, Repr

/-- `ImageLabeler.__init__` label/seen setup: with `default_labels=None` a
list of `len(images)` `None`s is created; then
`assert len(default_labels) == len(images)` (modelled as
`Except.error "AssertionError"`); `self._seen` starts all `False`.
Images are opaque handles of type `ι`. -/
def ImageLabeler.initData {α ι : Type} (images : List ι)
    (defaultLabels : Option (List (Option α))) : Except String (InitData α) :=
  let labels := match defaultLabels with
    | Option.none => List.replicate images.length Option.none
    | Option.some ls => ls
  if labels.length = images.length then
    Except.ok { labels := labels, seen := List.replicate images.length false }
  else
    Except.error "AssertionError"

/-- State of `ImageLabeler` in single (one-at-a-time) mode: the stored
images and labels, the seen array, the `nonlocal idx` of `_render_single`,
the auto-advance checkbox value (`auto_next_box.value`, initially `True`),
and — as the observable trace of rendering — the list of indices passed to
`render_img`, in call order. -/
structure SingleState (α ι : Type) where
  images : List ι
  labels : List (Option α)
  seen : List Bool
  idx : Nat
  autoNext : Bool
  rendered : List Nat
deriving Repr

/-- `n = len(self._images)` as captured by `_render_single`. -/
def SingleState.n {α ι : Type} (s : SingleState α ι) : Nat := s.images.length

/-- `_render_single.render_img(idx)`: displays image `idx` with a fresh input
cell and sets `self._seen[idx] = True`.  The display side is modelled by
appending `idx` to the rendering trace. -/
def SingleState.renderImg {α ι : Type} (s : SingleState α ι) (i : Nat) :
    SingleState α ι :=
  { s with seen := s.seen.set i true, rendered := s.rendered ++ [i] }

/-- `_render_single.next_img`: `if idx < n - 1: idx += 1; render_img(idx)`
(the trailing `set_progess()` only updates display widgets). -/
def SingleState.nextImg {α ι : Type} (s : SingleState α ι) : SingleState α ι :=
  if s.idx < s.n - 1 then
    let s₁ := { s with idx := s.idx + 1 }
    s₁.renderImg s₁.idx
  else s

/-- `_render_single.prev_img`: `if idx > 0: idx -= 1; render_img(idx)`. -/
def SingleState.prevImg {α ι : Type} (s : SingleState α ι) : SingleState α ι :=
  if 0 < s.idx then
    let s₁ := { s with idx := s.idx - 1 }
    s₁.renderImg s₁.idx
  else s

/-- `_render_single.render_img.cell_callback(label)` of the currently
displayed cell: `self._labels[idx] = label`, then
`if idx < n - 1 and auto_next_box.value: next_img(None)`.  The `idx` the
live cell captured equals the current `nonlocal idx`, because every change
of `idx` is immediately followed by `render_img(idx)`, which replaces the
displayed cell. -/
def SingleState.cellCallback {α ι : Type} (s : SingleState α ι) (v : α) :
    SingleState α ι :=
  let s₁ := { s with labels := s.labels.set s.idx (Option.some v) }
  if s₁.idx < s₁.n - 1 ∧ s₁.autoNext = true then s₁.nextImg else s₁

/-- The UI events that drive the single-mode state machine: the Next and
Previous buttons, a label submitted through the current input cell, and
toggling the auto-advance checkbox. -/
inductive SingleEvent (α : Type) where
  | next
  | prev
  | submit (v : α)
  | setAuto (b : Bool)
deriving DecidableEq, Repr

/-- One step of the single-mode state machine. -/
def SingleState.step {α ι : Type} (s : SingleState α ι) :
    SingleEvent α → SingleState α ι
  | SingleEvent.next => s.nextImg
  | SingleEvent.prev => s.prevImg
  | SingleEvent.submit v => s.cellCallback v
  | SingleEvent.setAuto b => { s with autoNext := b }

/-- The state set up by `_render_single`: `idx = 0`, seen all `False`,
auto-advance on, then the initial `render_img(idx)` call. -/
def SingleState.construct {α ι : Type} (images : List ι)
    (labels : List (Option α)) : SingleState α ι :=
  SingleState.renderImg
    { images := images, labels := labels,
      seen := List.replicate images.length false,
      idx := 0, autoNext := true, rendered := [] } 0

/-- The state reached from construction by a sequence of UI events: every
reachable state of the single-mode machine is `run images labels events`
for some event list. -/
def SingleState.run {α ι : Type} (images : List ι) (labels : List (Option α))
    (events : List (SingleEvent α)) : SingleState α ι :=
  events.foldl SingleState.step (SingleState.construct images labels)

/-- State of `ImageLabeler` in multi (all-at-once) mode. -/
structure MultiState (α ι : Type) where
  images : List ι
  labels : List (Option α)
  seen : List Bool
  rendered : List Nat
deriving Repr

/-- `_render_multi.render_img(idx)`: displays image `idx` with its own input
cell and sets `self._seen[idx] = True`. -/
def MultiState.renderImg {α ι : Type} (s : MultiState α ι) (i : Nat) :
    MultiState α ι :=
  { s with seen := s.seen.set i true, rendered := s.rendered ++ [i] }

/-- `_render_multi.render_img.cell_callback(label)` for the cell wired to
image `i`: `self._labels[idx] = label`. -/
def MultiState.cellCallback {α ι : Type} (s : MultiState α ι) (i : Nat) (v : α) :
    MultiState α ι :=
  { s with labels := s.labels.set i (Option.some v) }

/-- `_render_multi`: `for i in range(len(self._images)): render_img(i)`,
starting from the freshly initialized state. -/
def MultiState.construct {α ι : Type} (images : List ι)
    (labels : List (Option α)) : MultiState α ι :=
  (List.range images.length).foldl MultiState.renderImg
    { images := images, labels := labels,
      seen := List.replicate images.length false, rendered := [] }

/-- The `all_seen` property: `all(self._seen)`. -/
def MultiState.allSeen {α ι : Type} (s : MultiState α ι) : Bool :=
  s.seen.all (fun b => b)

/-- Invariant of the single-mode state machine: the index is in bounds, the
seen and labels arrays keep their construction length, index `0` has been
rendered, every rendered index is in bounds, and an image is marked seen
exactly when it has been rendered at least once. -/
def SingleInv {α ι : Type} (s : SingleState α ι) : Prop :=
  s.idx < s.images.length ∧
  s.seen.length = s.images.length ∧
  s.labels.length = s.images.length ∧
  0 ∈ s.rendered ∧
  (∀ j ∈ s.rendered, j < s.images.length) ∧
  (∀ j, s.seen[j]? = some true ↔ j ∈ s.rendered)

/-- A counter widget as created by `DetectorValidationInputCellFactory.new`:
bounds `[0, 100]` and a value within them. -/
def BoundedIntText.bounded01 (w : BoundedIntText) : Prop :=
  w.lo = 0 ∧ w.hi = 100 ∧ 0 ≤ w.value ∧ w.value ≤ 100

/-- All three counter widgets of a validation cell are `[0, 100]`-bounded. -/
def ValCell.bounded01 {σ : Type} (c : ValCell σ) : Prop :=
  c.tpWidget.bounded01 ∧ c.fpWidget.bounded01 ∧ c.fnWidget.bounded01

/-- Concrete single-mode scenario (3 images, Next then a submitted label)
used to witness C1. -/
def runC1 : SingleState Nat Nat :=
  SingleState.run [10, 20, 30] [Option.none, Option.none, Option.none]
    [SingleEvent.next, SingleEvent.submit 7]

/-- Concrete single-mode scenario (2 images, one Next) used to witness C2. -/
def runC2 : SingleState Nat Nat :=
  SingleState.run [10, 20] [Option.none, Option.none] [SingleEvent.next]

/-- Concrete single-mode scenario (2 images, freshly constructed) used to
witness C3. -/
def runC3 : SingleState Nat Nat :=
  SingleState.run [10, 20] [Option.none, Option.none] []

/-- Concrete single-mode scenario (2 images, one Next) used to witness C7. -/
def runC7 : SingleState Nat Nat :=
  SingleState.run [10, 20] [Option.none, Option.none] [SingleEvent.next]

/-- Concrete multi-mode state used to witness C7. -/
def multiC7 : MultiState Nat Nat :=
  MultiState.mk [10, 20] [Option.none, Option.none] [true, true] [0, 1]

/-- Concrete validation cell (out-of-range initial value, out-of-range edit)
used to witness C5. -/
def valCellC5 : ValCell Nat :=
  (DetectorValidationInputCellFactory.new (fun _ t => t)
    (Option.some { tp := 7, fp := 200, fn := -5 })).applyEdits [ValEdit.setTp 300]

/-- Concrete class-selector factory (two string classes, falsy `0` default —
replaced by `classes[0]`) used to witness C9. -/
def mcFactoryC9 : MultiClassInputCellFactory :=
  MultiClassInputCellFactory.mk [PyVal.pystr "cat", PyVal.pystr "dog"]
    (PyVal.pystr "cat")

/- ------------------------------------------------------------------ -/
/- Helper lemmas -/
/- ------------------------------------------------------------------ -/

theorem clampTrait_lower {lo hi v : Int} (h : lo ≤ hi) : lo ≤ clampTrait lo hi v :=
  le_min (le_max_right v lo) h

theorem clampTrait_upper (lo hi v : Int) : clampTrait lo hi v ≤ hi :=
  min_le_right _ hi

theorem clampTrait_of_mem {lo hi v : Int} (h1 : lo ≤ v) (h2 : v ≤ hi) :
    clampTrait lo hi v = v := by
  unfold clampTrait
  rw [max_eq_left h1, min_eq_left h2]

theorem bounded01_make (v : Int) : (BoundedIntText.make 0 100 v).bounded01 :=
  ⟨rfl, rfl, clampTrait_lower (by norm_num), clampTrait_upper 0 100 v⟩

theorem bounded01_setValue {w : BoundedIntText} (h : w.bounded01) (v : Int) :
    (w.setValue v).bounded01 := by
  obtain ⟨h1, h2, _, _⟩ := h
  exact ⟨h1, h2, by simp [BoundedIntText.setValue, h1, h2,
      clampTrait_lower (by norm_num : (0:Int) ≤ 100)],
    by simp [BoundedIntText.setValue, clampTrait_upper, h2]⟩

theorem valCell_bounded01_new {σ : Type} (cb : ValResult → σ → σ)
    (value : Option ValResult) :
    (DetectorValidationInputCellFactory.new cb value).bounded01 := by
  cases value <;>
    exact ⟨bounded01_make _, bounded01_make _, bounded01_make _⟩

theorem valCell_bounded01_applyEdit {σ : Type} {c : ValCell σ} (h : c.bounded01)
    (e : ValEdit) : (c.applyEdit e).bounded01 := by
  obtain ⟨h1, h2, h3⟩ := h
  cases e <;>
    exact ⟨by first | exact bounded01_setValue h1 _ | exact h1,
           by first | exact bounded01_setValue h2 _ | exact h2,
           by first | exact bounded01_setValue h3 _ | exact h3⟩

theorem valCell_bounded01_applyEdits {σ : Type} {c : ValCell σ} (h : c.bounded01)
    (es : List ValEdit) : (c.applyEdits es).bounded01 := by
  induction es generalizing c with
  | nil => exact h
  | cons e es ih => exact ih (valCell_bounded01_applyEdit h e)

theorem valCell_callback_applyEdits {σ : Type} (c : ValCell σ) (es : List ValEdit) :
    (c.applyEdits es).callback = c.callback := by
  induction es generalizing c with
  | nil => rfl
  | cons e es ih =>
      rw [ValCell.applyEdits, List.foldl_cons, ← ValCell.applyEdits, ih]
      cases e <;> rfl

theorem seen_set_true_iff {l : List Bool} {r : List Nat}
    (hiff : ∀ j, l[j]? = some true ↔ j ∈ r) {i : Nat} (hi : i < l.length) :
    ∀ j, (l.set i true)[j]? = some true ↔ j ∈ r ++ [i] := by
  intro j
  rw [List.getElem?_set, List.mem_append, List.mem_singleton]
  by_cases hij : i = j
  · subst hij
    simp [hi]
  · simp only [if_neg hij, hiff j]
    constructor
    · exact Or.inl
    · rintro (h | h)
      · exact h
      · exact absurd h.symm hij

theorem set_true_mono {l : List Bool} {j : Nat} (h : l[j]? = some true) (i : Nat) :
    (l.set i true)[j]? = some true := by
  rw [List.getElem?_set]
  by_cases hij : i = j
  · subst hij
    have hlt : i < l.length := by
      by_contra hcon
      rw [List.getElem?_eq_none (by omega)] at h
      cases h
    simp [hlt]
  · rwa [if_neg hij]

theorem singleInv_renderImg {α ι : Type} {s : SingleState α ι} (h : SingleInv s)
    {i : Nat} (hi : i < s.images.length) : SingleInv (s.renderImg i) := by
  obtain ⟨h1, h2, h3, h4, h5, h6⟩ := h
  refine ⟨h1, ?_, h3, ?_, ?_, ?_⟩ <;> simp only [SingleState.renderImg]
  · simpa using h2
  · exact List.mem_append_left _ h4
  · intro j hj
    rcases List.mem_append.1 hj with hj | hj
    · exact h5 j hj
    · rw [List.mem_singleton] at hj
      omega
  · exact seen_set_true_iff h6 (h2 ▸ hi)

theorem singleInv_nextImg {α ι : Type} {s : SingleState α ι} (h : SingleInv s) :
    SingleInv s.nextImg := by
  unfold SingleState.nextImg
  split
  · rename_i hlt
    rw [SingleState.n] at hlt
    have h' : SingleInv { s with idx := s.idx + 1 } := by
      obtain ⟨h1, h2, h3, h4, h5, h6⟩ := h
      exact ⟨by simp; omega, h2, h3, h4, h5, h6⟩
    exact singleInv_renderImg h' (by simp; omega)
  · exact h

theorem singleInv_prevImg {α ι : Type} {s : SingleState α ι} (h : SingleInv s) :
    SingleInv s.prevImg := by
  unfold SingleState.prevImg
  split
  · rename_i hlt
    obtain ⟨h1, h2, h3, h4, h5, h6⟩ := h
    have h' : SingleInv { s with idx := s.idx - 1 } := by
      exact ⟨by simp; omega, h2, h3, h4, h5, h6⟩
    exact singleInv_renderImg h' (by simp; omega)
  · exact h

theorem singleInv_cellCallback {α ι : Type} {s : SingleState α ι} (h : SingleInv s)
    (v : α) : SingleInv (s.cellCallback v) := by
  unfold SingleState.cellCallback
  have h' : SingleInv { s with labels := s.labels.set s.idx (Option.some v) } := by
    obtain ⟨h1, h2, h3, h4, h5, h6⟩ := h
    exact ⟨h1, h2, by simpa using h3, h4, h5, h6⟩
  dsimp only
  split
  · exact singleInv_nextImg h'
  · exact h'

theorem singleInv_step {α ι : Type} {s : SingleState α ι} (h : SingleInv s)
    (e : SingleEvent α) : SingleInv (s.step e) := by
  cases e with
  | next => exact singleInv_nextImg h
  | prev => exact singleInv_prevImg h
  | submit v => exact singleInv_cellCallback h v
  | setAuto b =>
      obtain ⟨h1, h2, h3, h4, h5, h6⟩ := h
      exact ⟨h1, h2, h3, h4, h5, h6⟩

theorem singleInv_construct {α ι : Type} {images : List ι}
    {labels : List (Option α)} (h0 : 0 < images.length)
    (hlen : labels.length = images.length) :
    SingleInv (SingleState.construct images labels) := by
  unfold SingleState.construct SingleState.renderImg
  refine ⟨by simpa using h0, by simp, by simpa using hlen, by simp, ?_, ?_⟩
  · intro j hj
    simp only [List.nil_append, List.mem_singleton] at hj
    simp [hj]
    omega
  · intro j
    rw [List.getElem?_set]
    by_cases hj : j = 0
    · subst hj
      simp [h0]
    · simp only [List.nil_append, List.mem_singleton]
      rw [if_neg (by omega)]
      rw [List.getElem?_replicate]
      constructor
      · intro hfalse
        split at hfalse <;> cases hfalse
      · intro hfalse
        exact absurd hfalse hj

theorem singleInv_foldl {α ι : Type} {s : SingleState α ι} (h : SingleInv s)
    (events : List (SingleEvent α)) : SingleInv (events.foldl SingleState.step s) := by
  induction events generalizing s with
  | nil => exact h
  | cons e es ih => exact ih (singleInv_step h e)

theorem singleInv_run {α ι : Type} {images : List ι} {labels : List (Option α)}
    (h0 : 0 < images.length) (hlen : labels.length = images.length)
    (events : List (SingleEvent α)) : SingleInv (SingleState.run images labels events) :=
  singleInv_foldl (singleInv_construct h0 hlen) events

theorem nextImg_idx {α ι : Type} (s : SingleState α ι) :
    s.nextImg.idx = if s.idx < s.n - 1 then s.idx + 1 else s.idx := by
  unfold SingleState.nextImg SingleState.renderImg
  split <;> rfl

theorem prevImg_idx {α ι : Type} (s : SingleState α ι) :
    s.prevImg.idx = if 0 < s.idx then s.idx - 1 else s.idx := by
  unfold SingleState.prevImg SingleState.renderImg
  split <;> rfl

theorem nextImg_labels {α ι : Type} (s : SingleState α ι) :
    s.nextImg.labels = s.labels := by
  unfold SingleState.nextImg SingleState.renderImg
  split <;> rfl

theorem nextImg_images {α ι : Type} (s : SingleState α ι) :
    s.nextImg.images = s.images := by
  unfold SingleState.nextImg SingleState.renderImg
  split <;> rfl

theorem nextImg_seen {α ι : Type} (s : SingleState α ι) :
    s.nextImg.seen = if s.idx < s.n - 1 then s.seen.set (s.idx + 1) true else s.seen := by
  unfold SingleState.nextImg SingleState.renderImg
  split <;> rfl

theorem nextImg_rendered {α ι : Type} (s : SingleState α ι) :
    s.nextImg.rendered =
      if s.idx < s.n - 1 then s.rendered ++ [s.idx + 1] else s.rendered := by
  unfold SingleState.nextImg SingleState.renderImg
  split <;> rfl

theorem prevImg_seen {α ι : Type} (s : SingleState α ι) :
    s.prevImg.seen = if 0 < s.idx then s.seen.set (s.idx - 1) true else s.seen := by
  unfold SingleState.prevImg SingleState.renderImg
  split <;> rfl

theorem cellCallback_labels {α ι : Type} (s : SingleState α ι) (v : α) :
    (s.cellCallback v).labels = s.labels.set s.idx (Option.some v) := by
  unfold SingleState.cellCallback
  dsimp only
  split
  · rw [nextImg_labels]
  · rfl

theorem cellCallback_images {α ι : Type} (s : SingleState α ι) (v : α) :
    (s.cellCallback v).images = s.images := by
  unfold SingleState.cellCallback
  dsimp only
  split
  · rw [nextImg_images]
  · rfl

theorem cellCallback_idx {α ι : Type} (s : SingleState α ι) (v : α) :
    (s.cellCallback v).idx =
      if s.idx < s.n - 1 ∧ s.autoNext = true then s.idx + 1 else s.idx := by
  by_cases hc : s.idx < s.images.length - 1 ∧ s.autoNext = true
  · simp [SingleState.cellCallback, SingleState.nextImg, SingleState.renderImg,
      SingleState.n, hc, hc.1, hc.2]
  · simp only [SingleState.cellCallback, SingleState.nextImg, SingleState.renderImg,
      SingleState.n] at hc ⊢
    rw [if_neg hc, if_neg hc]

theorem cellCallback_seen {α ι : Type} (s : SingleState α ι) (v : α) :
    (s.cellCallback v).seen =
      if s.idx < s.n - 1 ∧ s.autoNext = true
      then s.seen.set (s.idx + 1) true else s.seen := by
  by_cases hc : s.idx < s.images.length - 1 ∧ s.autoNext = true
  · simp [SingleState.cellCallback, SingleState.nextImg, SingleState.renderImg,
      SingleState.n, hc, hc.1, hc.2]
  · simp only [SingleState.cellCallback, SingleState.nextImg, SingleState.renderImg,
      SingleState.n] at hc ⊢
    rw [if_neg hc, if_neg hc]

theorem cellCallback_rendered {α ι : Type} (s : SingleState α ι) (v : α) :
    (s.cellCallback v).rendered =
      if s.idx < s.n - 1 ∧ s.autoNext = true
      then s.rendered ++ [s.idx + 1] else s.rendered := by
  by_cases hc : s.idx < s.images.length - 1 ∧ s.autoNext = true
  · simp [SingleState.cellCallback, SingleState.nextImg, SingleState.renderImg,
      SingleState.n, hc, hc.1, hc.2]
  · simp only [SingleState.cellCallback, SingleState.nextImg, SingleState.renderImg,
      SingleState.n] at hc ⊢
    rw [if_neg hc, if_neg hc]

theorem seen_mono_step {α ι : Type} (s : SingleState α ι) (e : SingleEvent α)
    {j : Nat} (h : s.seen[j]? = some true) : (s.step e).seen[j]? = some true := by
  cases e with
  | next =>
      show s.nextImg.seen[j]? = some true
      rw [nextImg_seen]
      split
      · exact set_true_mono h _
      · exact h
  | prev =>
      show s.prevImg.seen[j]? = some true
      rw [prevImg_seen]
      split
      · exact set_true_mono h _
      · exact h
  | submit v =>
      show (s.cellCallback v).seen[j]? = some true
      rw [cellCallback_seen]
      split
      · exact set_true_mono h _
      · exact h
  | setAuto b => exact h

theorem foldl_set_true_length (is : List Nat) (l : List Bool) :
    (is.foldl (fun acc i => acc.set i true) l).length = l.length := by
  induction is generalizing l with
  | nil => rfl
  | cons i is ih => rw [List.foldl_cons, ih, List.length_set]

theorem foldl_set_true_getElem? (is : List Nat) (l : List Bool) (j : Nat) :
    (is.foldl (fun acc i => acc.set i true) l)[j]? =
      if j ∈ is ∧ j < l.length then some true else l[j]? := by
  induction is generalizing l with
  | nil => simp
  | cons i is ih =>
      rw [List.foldl_cons, ih, List.length_set]
      by_cases hjl : j < l.length
      · by_cases hji : j ∈ is
        · simp [hji, hjl, List.mem_cons]
        · by_cases hij : j = i
          · subst hij
            simp [hji, hjl, List.mem_cons, List.getElem?_set]
          · simp [hji, hjl, List.mem_cons, hij, List.getElem?_set, Ne.symm hij]
      · simp only [hjl, and_false, if_false]
        rw [List.getElem?_eq_none (by rw [List.length_set]; omega),
          List.getElem?_eq_none (by omega)]

theorem multiState_foldl_renderImg {α ι : Type} (is : List Nat)
    (s : MultiState α ι) :
    (is.foldl MultiState.renderImg s).images = s.images ∧
    (is.foldl MultiState.renderImg s).labels = s.labels ∧
    (is.foldl MultiState.renderImg s).rendered = s.rendered ++ is ∧
    (is.foldl MultiState.renderImg s).seen =
      is.foldl (fun acc i => acc.set i true) s.seen := by
  induction is generalizing s with
  | nil => simp
  | cons i is ih =>
      obtain ⟨ih1, ih2, ih3, ih4⟩ := ih (s.renderImg i)
      rw [List.foldl_cons, List.foldl_cons]
      refine ⟨by rw [ih1]; rfl, by rw [ih2]; rfl, ?_, by rw [ih4]; rfl⟩
      rw [ih3]
      simp [MultiState.renderImg]

/- ------------------------------------------------------------------ -/
/- Claim theorems -/
/- ------------------------------------------------------------------ -/

/-- C1: In single (one-at-a-time) mode over `n` images, the current index is
always in `[0, n-1]` (indices are naturals, so `idx < n`); pressing Next
increments the index by exactly 1 only when the index is strictly less than
`n-1` and otherwise leaves it unchanged, and pressing Previous decrements it
by exactly 1 only when the index is strictly greater than 0 and otherwise
leaves it unchanged; this holds for every reachable state of the navigation
state machine. -/
theorem spec_C1_single_index_bounds {α ι : Type} (images : List ι)
    (labels : List (Option α)) (events : List (SingleEvent α))
    (s : SingleState α ι) (h0 : 0 < images.length)
    (hlen : labels.length = images.length)
    (hs : s = SingleState.run images labels events) :
    s.idx < s.n ∧
    (s.step SingleEvent.next).idx = (if s.idx < s.n - 1 then s.idx + 1 else s.idx) ∧
    (s.step SingleEvent.prev).idx = (if 0 < s.idx then s.idx - 1 else s.idx) := by
  subst hs
  have hinv := singleInv_run h0 hlen events
  exact ⟨hinv.1, nextImg_idx _, prevImg_idx _⟩

theorem spec_C1_single_index_bounds_witness :
    runC1.idx < runC1.n ∧
    (runC1.step SingleEvent.next).idx =
      (if runC1.idx < runC1.n - 1 then runC1.idx + 1 else runC1.idx) ∧
    (runC1.step SingleEvent.prev).idx =
      (if 0 < runC1.idx then runC1.idx - 1 else runC1.idx) :=
  spec_C1_single_index_bounds [10, 20, 30] [Option.none, Option.none, Option.none]
    [SingleEvent.next, SingleEvent.submit 7] runC1 (by decide) (by decide) rfl

/-- C2: For every image index `i` and submitted label `v`, the input cell
callback wired to image `i` sets `labels[i]` to `v` and leaves every other
entry, the images list, and the labels length unchanged — in single mode
(where the live cell's `i` is the current index) and in multi mode. -/
theorem spec_C2_callback_frame {α ι : Type} (images : List ι)
    (labels : List (Option α)) (events : List (SingleEvent α))
    (s : SingleState α ι) (v : α) (h0 : 0 < images.length)
    (hlen : labels.length = images.length)
    (hs : s = SingleState.run images labels events) :
    ((s.cellCallback v).labels[s.idx]? = some (Option.some v) ∧
     (∀ j, j ≠ s.idx → (s.cellCallback v).labels[j]? = s.labels[j]?) ∧
     (s.cellCallback v).labels.length = s.labels.length ∧
     (s.cellCallback v).images = s.images) ∧
    ∀ (m : MultiState α ι) (i : Nat) (w : α), i < m.labels.length →
      ((m.cellCallback i w).labels[i]? = some (Option.some w) ∧
       (∀ j, j ≠ i → (m.cellCallback i w).labels[j]? = m.labels[j]?) ∧
       (m.cellCallback i w).labels.length = m.labels.length ∧
       (m.cellCallback i w).images = m.images ∧
       (m.cellCallback i w).seen = m.seen) := by
  subst hs
  have hinv := singleInv_run h0 hlen events
  have hidx : (SingleState.run images labels events).idx <
      (SingleState.run images labels events).labels.length := by
    have := hinv.1
    have := hinv.2.2.1
    omega
  constructor
  · refine ⟨?_, ?_, ?_, cellCallback_images _ v⟩
    · rw [cellCallback_labels, List.getElem?_set, if_pos rfl, if_pos hidx]
    · intro j hj
      rw [cellCallback_labels, List.getElem?_set, if_neg (fun h => hj h.symm)]
    · rw [cellCallback_labels, List.length_set]
  · intro m i w hi
    refine ⟨?_, ?_, ?_, rfl, rfl⟩
    · show (m.labels.set i (Option.some w))[i]? = some (Option.some w)
      rw [List.getElem?_set, if_pos rfl, if_pos hi]
    · intro j hj
      show (m.labels.set i (Option.some w))[j]? = m.labels[j]?
      rw [List.getElem?_set, if_neg (fun h => hj h.symm)]
    · show (m.labels.set i (Option.some w)).length = m.labels.length
      rw [List.length_set]

theorem spec_C2_callback_frame_witness :
    ((runC2.cellCallback 5).labels[runC2.idx]? = some (Option.some 5) ∧
     (∀ j, j ≠ runC2.idx → (runC2.cellCallback 5).labels[j]? = runC2.labels[j]?) ∧
     (runC2.cellCallback 5).labels.length = runC2.labels.length ∧
     (runC2.cellCallback 5).images = runC2.images) ∧
    ∀ (m : MultiState Nat Nat) (i : Nat) (w : Nat), i < m.labels.length →
      ((m.cellCallback i w).labels[i]? = some (Option.some w) ∧
       (∀ j, j ≠ i → (m.cellCallback i w).labels[j]? = m.labels[j]?) ∧
       (m.cellCallback i w).labels.length = m.labels.length ∧
       (m.cellCallback i w).images = m.images ∧
       (m.cellCallback i w).seen = m.seen) :=
  spec_C2_callback_frame [10, 20] [Option.none, Option.none] [SingleEvent.next]
    runC2 5 (by decide) (by decide) rfl

/-- C3: In single mode, when the input cell callback fires with the
auto-advance checkbox enabled and the current index `i` below `n-1`, the
labeler advances to `i+1` and renders that image, marking it seen; when
auto-advance is disabled or `i = n-1`, the index is unchanged. -/
theorem spec_C3_auto_advance {α ι : Type} (images : List ι)
    (labels : List (Option α)) (events : List (SingleEvent α))
    (s : SingleState α ι) (v : α) (h0 : 0 < images.length)
    (hlen : labels.length = images.length)
    (hs : s = SingleState.run images labels events) :
    (s.autoNext = true ∧ s.idx < s.n - 1 →
       (s.cellCallback v).idx = s.idx + 1 ∧
       (s.cellCallback v).rendered = s.rendered ++ [s.idx + 1] ∧
       (s.cellCallback v).seen[s.idx + 1]? = some true) ∧
    (s.autoNext = false ∨ s.idx = s.n - 1 → (s.cellCallback v).idx = s.idx) := by
  subst hs
  have hinv := singleInv_run h0 hlen events
  constructor
  · rintro ⟨ha, hlt⟩
    refine ⟨?_, ?_, ?_⟩
    · rw [cellCallback_idx, if_pos ⟨hlt, ha⟩]
    · rw [cellCallback_rendered, if_pos ⟨hlt, ha⟩]
    · rw [cellCallback_seen, if_pos ⟨hlt, ha⟩, List.getElem?_set, if_pos rfl,
        if_pos]
      have hseen := hinv.2.1
      rw [SingleState.n] at hlt
      omega
  · intro h
    rw [cellCallback_idx, if_neg]
    rintro ⟨hlt, ha⟩
    rcases h with hf | he
    · rw [hf] at ha
      cases ha
    · omega

theorem spec_C3_auto_advance_witness :
    (runC3.autoNext = true ∧ runC3.idx < runC3.n - 1 →
       (runC3.cellCallback 5).idx = runC3.idx + 1 ∧
       (runC3.cellCallback 5).rendered = runC3.rendered ++ [runC3.idx + 1] ∧
       (runC3.cellCallback 5).seen[runC3.idx + 1]? = some true) ∧
    (runC3.autoNext = false ∨ runC3.idx = runC3.n - 1 →
       (runC3.cellCallback 5).idx = runC3.idx) :=
  spec_C3_auto_advance [10, 20] [Option.none, Option.none] [] runC3 5
    (by decide) (by decide) rfl

/-- C7: The seen-set grows monotonically — no step of the state machine
resets a seen flag from `True` to `False` — and in every reachable
single-mode state `seen[j]` is `True` exactly when image `j` has been
rendered at least once; index 0 is rendered at construction, so `seen[0]`
is `True` in every reachable state.  A multi-mode input cell callback
leaves the seen array unchanged. -/
theorem spec_C7_seen_monotone {α ι : Type} (images : List ι)
    (labels : List (Option α)) (events : List (SingleEvent α))
    (s : SingleState α ι) (e : SingleEvent α) (j : Nat)
    (m : MultiState α ι) (i : Nat) (w : α) (h0 : 0 < images.length)
    (hlen : labels.length = images.length)
    (hs : s = SingleState.run images labels events) :
    (s.seen[j]? = some true → (s.step e).seen[j]? = some true) ∧
    (s.seen[j]? = some true ↔ j ∈ s.rendered) ∧
    s.seen[0]? = some true ∧
    (m.cellCallback i w).seen = m.seen := by
  subst hs
  have hinv := singleInv_run h0 hlen events
  refine ⟨seen_mono_step _ e, hinv.2.2.2.2.2 j, ?_, rfl⟩
  exact (hinv.2.2.2.2.2 0).2 hinv.2.2.2.1

theorem spec_C7_seen_monotone_witness :
    (runC7.seen[1]? = some true →
      (runC7.step SingleEvent.prev).seen[1]? = some true) ∧
    (runC7.seen[1]? = some true ↔ 1 ∈ runC7.rendered) ∧
    runC7.seen[0]? = some true ∧
    (multiC7.cellCallback 0 3).seen = multiC7.seen :=
  spec_C7_seen_monotone [10, 20] [Option.none, Option.none] [SingleEvent.next]
    runC7 SingleEvent.prev 1 multiC7 0 3 (by decide) (by decide) rfl

/-- C4: Both input cell factories wire the result callback to the newly
chosen value: the class-selector cell's change observer invokes the callback
with the newly selected class, and the validation-counter cell's Submit
click handler invokes the callback with a `ValResult` built from the current
values of the three counter widgets (after any sequence of user edits). -/
theorem spec_C4_callback_wiring {σ : Type} (f : MultiClassInputCellFactory)
    (cb : PyVal → σ → σ) (value : PyVal) (change : ChangeEvent) (s : σ)
    (vcb : ValResult → σ → σ) (vvalue : Option ValResult) (edits : List ValEdit)
    (t : σ) :
    (f.new cb value).onChange change s = cb change.new s ∧
    ((DetectorValidationInputCellFactory.new vcb vvalue).applyEdits edits).onSubmit t =
      vcb { tp := ((DetectorValidationInputCellFactory.new vcb vvalue).applyEdits
                edits).tpWidget.value,
            fp := ((DetectorValidationInputCellFactory.new vcb vvalue).applyEdits
                edits).fpWidget.value,
            fn := ((DetectorValidationInputCellFactory.new vcb vvalue).applyEdits
                edits).fnWidget.value } t := by
  constructor
  · rfl
  · show (((DetectorValidationInputCellFactory.new vcb vvalue).applyEdits
        edits).callback) _ t = _
    rw [valCell_callback_applyEdits]
    cases vvalue <;> rfl

/-- C5: Validation-counter entry is bounds-checked integer entry: whatever
initial value the cell is created with and whatever edits the user makes to
the three `BoundedIntText` counters, the `ValResult` delivered to the result
callback on Submit satisfies `0 ≤ tp ≤ 100`, `0 ≤ fp ≤ 100`, `0 ≤ fn ≤ 100`. -/
theorem spec_C5_bounded_entry {σ : Type} (cb : ValResult → σ → σ)
    (value : Option ValResult) (edits : List ValEdit) (r : ValResult)
    (hr : r = ((DetectorValidationInputCellFactory.new cb value).applyEdits
        edits).submitResult) :
    0 ≤ r.tp ∧ r.tp ≤ 100 ∧ 0 ≤ r.fp ∧ r.fp ≤ 100 ∧ 0 ≤ r.fn ∧ r.fn ≤ 100 := by
  subst hr
  obtain ⟨⟨_, _, htl, htu⟩, ⟨_, _, hfl, hfu⟩, ⟨_, _, hnl, hnu⟩⟩ :=
    valCell_bounded01_applyEdits (valCell_bounded01_new cb value) edits
  exact ⟨htl, htu, hfl, hfu, hnl, hnu⟩

theorem spec_C5_bounded_entry_witness :
    0 ≤ valCellC5.submitResult.tp ∧ valCellC5.submitResult.tp ≤ 100 ∧
    0 ≤ valCellC5.submitResult.fp ∧ valCellC5.submitResult.fp ≤ 100 ∧
    0 ≤ valCellC5.submitResult.fn ∧ valCellC5.submitResult.fn ≤ 100 :=
  spec_C5_bounded_entry (fun _ t => t)
    (Option.some { tp := 7, fp := 200, fn := -5 }) [ValEdit.setTp 300]
    valCellC5.submitResult rfl

/-- C6: In multi (all-at-once) mode over `n` images, construction renders
every image exactly once in index order `0, 1, ..., n-1` (the rendering
trace is exactly `range n`) and marks every image seen, so `all_seen` is
`True` immediately after construction. -/
theorem spec_C6_multi_renders_all {α ι : Type} (images : List ι)
    (labels : List (Option α)) :
    (MultiState.construct images labels).rendered = List.range images.length ∧
    (MultiState.construct images labels).allSeen = true := by
  obtain ⟨h1, h2, h3, h4⟩ := multiState_foldl_renderImg (List.range images.length)
    { images := images, labels := labels,
      seen := List.replicate images.length false, rendered := [] }
  constructor
  · unfold MultiState.construct
    rw [h3]
    simp
  · unfold MultiState.allSeen MultiState.construct
    rw [h4, List.all_eq_true]
    intro b hb
    obtain ⟨k, hk⟩ := List.mem_iff_getElem?.mp hb
    rw [foldl_set_true_getElem?, List.length_replicate] at hk
    by_cases hkn : k < images.length
    · rw [if_pos ⟨List.mem_range.mpr hkn, hkn⟩] at hk
      exact (Option.some.inj hk).symm
    · rw [if_neg (fun h => hkn h.2), List.getElem?_replicate, if_neg hkn] at hk
      cases hk

/-- C8: `ImageLabeler` construction with `default_labels=None` initializes
the labels to `len(images)` `None` entries and the seen-set to all `False`;
an explicit `default_labels` of the wrong length fails the assertion, and
one of matching length is taken over unchanged. -/
theorem spec_C8_init_defaults {α ι : Type} (images : List ι)
    (dl : List (Option α)) :
    ImageLabeler.initData images (Option.none : Option (List (Option α))) =
      Except.ok { labels := List.replicate images.length Option.none,
                  seen := List.replicate images.length false } ∧
    ImageLabeler.initData images (Option.some dl) =
      (if dl.length = images.length
       then Except.ok { labels := dl, seen := List.replicate images.length false }
       else Except.error "AssertionError") := by
  constructor
  · simp [ImageLabeler.initData]
  · rfl

/-- C9: For the class-selector factory, `new(result_callback, value)` starts
the control at `value` only when `value` is one of the configured classes;
when `value` is `None` or not among the classes the selection starts at the
factory's default class, which is the constructor's `default` argument when
that argument is truthy and otherwise `classes[0]` (a falsy default such as
`0` or `""` is silently replaced by `classes[0]`). -/
theorem spec_C9_default_class {σ : Type} (classes : List PyVal)
    (default : PyVal) (f : MultiClassInputCellFactory)
    (hf : MultiClassInputCellFactory.init classes default = Option.some f) :
    f.classes = classes ∧
    (default.truthy = true → f.defaultClass = default) ∧
    (default.truthy = false → classes.head? = some f.defaultClass) ∧
    ∀ (value : PyVal) (cb : PyVal → σ → σ),
      (f.new cb value).widget.value =
        (if value = PyVal.none ∨ value ∉ classes then f.defaultClass
         else value) := by
  unfold MultiClassInputCellFactory.init at hf
  by_cases ht : default.truthy = true
  · rw [if_pos ht] at hf
    obtain rfl : MultiClassInputCellFactory.mk classes default = f :=
      Option.some.inj hf
    exact ⟨rfl, fun _ => rfl, fun hc => absurd ht (by rw [hc]; decide),
      fun value cb => rfl⟩
  · rw [if_neg ht] at hf
    cases hcl : classes.head? with
    | none =>
        rw [hcl] at hf
        cases hf
    | some c =>
        rw [hcl] at hf
        obtain rfl : MultiClassInputCellFactory.mk classes c = f :=
          Option.some.inj hf
        exact ⟨rfl, fun hc => absurd hc ht, fun _ => rfl,
          fun value cb => rfl⟩

theorem spec_C9_default_class_witness :
    mcFactoryC9.classes = [PyVal.pystr "cat", PyVal.pystr "dog"] ∧
    ((PyVal.pyint 0).truthy = true →
      mcFactoryC9.defaultClass = PyVal.pyint 0) ∧
    ((PyVal.pyint 0).truthy = false →
      [PyVal.pystr "cat", PyVal.pystr "dog"].head? =
        some mcFactoryC9.defaultClass) ∧
    ∀ (value : PyVal) (cb : PyVal → Nat → Nat),
      (mcFactoryC9.new cb value).widget.value =
        (if value = PyVal.none ∨
            value ∉ [PyVal.pystr "cat", PyVal.pystr "dog"]
         then mcFactoryC9.defaultClass else value) :=
  spec_C9_default_class [PyVal.pystr "cat", PyVal.pystr "dog"]
    (PyVal.pyint 0) mcFactoryC9 (by decide)

/-- C10 as stated is false: the counter widgets are `BoundedIntText`s with
bounds `[0, 100]`, so an out-of-range `ValResult` field is clamped at
construction rather than stored as-is.  With `value = ValResult(tp=200,
fp=0, fn=0)` the `tp` widget starts at `100`, not `200`. -/
theorem spec_C10_counterexample :
    ((DetectorValidationInputCellFactory.new (fun (_ : ValResult) (t : Nat) => t)
        (Option.some { tp := 200, fp := 0, fn := 0 })).tpWidget.value = 100) ∧
    ¬ ((DetectorValidationInputCellFactory.new (fun (_ : ValResult) (t : Nat) => t)
        (Option.some { tp := 200, fp := 0, fn := 0 })).tpWidget.value = 200) := by
  constructor
  · rfl
  · decide

/-- C10 (amended): `new(result_callback, value)` with `value=None` starts all
three counter widgets at `0`; with a `ValResult` value it starts them at the
value's `tp`, `fp`, `fn` fields clamped to the widgets' `[0, 100]` bounds —
in particular at exactly those fields whenever each lies in `[0, 100]`. -/
theorem spec_C10_initial_values {σ : Type} (cb : ValResult → σ → σ)
    (v : ValResult) :
    ((DetectorValidationInputCellFactory.new cb Option.none).tpWidget.value = 0 ∧
     (DetectorValidationInputCellFactory.new cb Option.none).fpWidget.value = 0 ∧
     (DetectorValidationInputCellFactory.new cb Option.none).fnWidget.value = 0) ∧
    ((DetectorValidationInputCellFactory.new cb (Option.some v)).tpWidget.value =
        clampTrait 0 100 v.tp ∧
     (DetectorValidationInputCellFactory.new cb (Option.some v)).fpWidget.value =
        clampTrait 0 100 v.fp ∧
     (DetectorValidationInputCellFactory.new cb (Option.some v)).fnWidget.value =
        clampTrait 0 100 v.fn) ∧
    (0 ≤ v.tp → v.tp ≤ 100 →
      (DetectorValidationInputCellFactory.new cb (Option.some v)).tpWidget.value
        = v.tp) ∧
    (0 ≤ v.fp → v.fp ≤ 100 →
      (DetectorValidationInputCellFactory.new cb (Option.some v)).fpWidget.value
        = v.fp) ∧
    (0 ≤ v.fn → v.fn ≤ 100 →
      (DetectorValidationInputCellFactory.new cb (Option.some v)).fnWidget.value
        = v.fn) := by
  refine ⟨⟨rfl, rfl, rfl⟩, ⟨rfl, rfl, rfl⟩, ?_, ?_, ?_⟩ <;>
    exact fun h1 h2 => clampTrait_of_mem h1 h2
